import Mathlib

/-!
Verification of the identifier-normalization and multi-source join logic of the
poverty-pockets mapping application.

JavaScript objects used as string-keyed dictionaries are modelled as association
lists `List (String × α)` in iteration (insertion) order; property assignment is
`objSet` (overwrite in place, append if fresh) and property lookup is `lookupS`
(first match).  A JavaScript value that may be `null`/`undefined` is modelled as
an `Option`.
-/

/-- JS property write `obj[k] = v`: replace the value in place if the key is
present, otherwise append the pair at the end (JS insertion order). -/
def objSet {α : Type} : List (String × α) → String → α → List (String × α)
  | [], k, v => [(k, v)]
  | e :: t, k, v => if e.1 = k then (k, v) :: t else e :: objSet t k v

/-- JS property read `obj[k]`: first matching key, `none` meaning `undefined`. -/
def lookupS {α : Type} : List (String × α) → String → Option α
  | [], _ => none
  | e :: t, k => if e.1 = k then some e.2 else lookupS t k

/-- Non-thunked `Option` fallback, used to state lookup lemmas. -/
def optOr {α : Type} (a b : Option α) : Option α :=
  match a with
  | some x => some x
  | none => b

/-- Lookup in reversed order: the value of the LAST occurrence of a key. -/
def revLookup {α : Type} (l : List (String × α)) (k : String) : Option α :=
  lookupS l.reverse k

/-- JS object spread `{...a, ...b}`: fields of `b` override fields of `a` of the
same name. -/
def mergeRecords {α : Type} (a b : List (String × α)) : List (String × α) :=
  b.foldl (fun acc e => objSet acc e.1 e.2) a

/-- The keys of an association list are pairwise distinct. -/
def nodupKeys {α : Type} (l : List (String × α)) : Prop :=
  (l.map Prod.fst).Nodup

instance {α : Type} (l : List (String × α)) : Decidable (nodupKeys l) := by
  unfold nodupKeys; infer_instance

/-- JS `Set.prototype.add` on a set kept as a list in insertion order. -/
def setAdd (l : List String) (x : String) : List String :=
  if x ∈ l then l else l ++ [x]

/-! ### Identifier normalizer (`normalizeTractGeoid`, censusDataUtils.js 9-28) -/

/-- Digit filter of `String.replace(/\D/g, '')`. -/
def stripNonDigits (l : List Char) : List Char :=
  l.filter Char.isDigit

/-- JS `normalizedGeoid.startsWith('14000')`. -/
def starts14000 (l : List Char) : Bool :=
  l.take 5 == ['1', '4', '0', '0', '0']

/-- JS `if (normalizedGeoid.startsWith('14000')) normalizedGeoid.substring(5)`. -/
def strip14000 (l : List Char) : List Char :=
  if starts14000 l then l.drop 5 else l

/-- Fuelled form of `while (normalizedGeoid.length < 11) normalizedGeoid = '0' +
normalizedGeoid;`.  Each iteration grows the string by one, so fuel 11 is enough
for the loop to reach its exit condition (proved in `padFuel_spec`). -/
def padFuel : Nat → List Char → List Char
  | 0, l => l
  | n + 1, l => if l.length < 11 then padFuel n ('0' :: l) else l

/-- The zero-padding while loop of `normalizeTractGeoid`. -/
def padTo11 (l : List Char) : List Char :=
  padFuel 11 l

/-- JS `if (normalizedGeoid.length > 11) normalizedGeoid.substring(0, 11)`. -/
def truncTo11 (l : List Char) : List Char :=
  if l.length > 11 then l.take 11 else l

/-- The character-level pipeline of `normalizeTractGeoid` on a non-empty raw
string. -/
def normTractChars (l : List Char) : List Char :=
  truncTo11 (padTo11 (strip14000 (stripNonDigits l)))

/-- JS `normalizeTractGeoid` (censusDataUtils.js 9-28).  The argument models the
JS input: `none` is `null`/`undefined`, `some s` a string (a numeric input is
covered by the string `String(geoid)` produces).  `!geoid` is true exactly for
`none` and `some ""`. -/
def normalizeTractGeoid (geoid : Option String) : Option String :=
  match geoid with
  | none => none
  | some s => if s = "" then none else some (String.mk (normTractChars s.data))

/-- JS `normalizeTractGeoid` as `processCensusData` invokes it, on the key strings
produced by `Object.keys` (a key is a string, never `null`). -/
def normalizeTractKey (k : String) : Option String :=
  normalizeTractGeoid (some k)

/-! ### `processCensusData` (censusDataUtils.js 53-68) -/

/-- JS `processCensusData(censusData, normalizeFunction)`: one fold over the keys
in iteration order; a key whose normalization is truthy is stored under the
normalized key, and additionally under the original key when the two differ. -/
def processCensusData {α : Type} (normF : String → Option String)
    (censusData : List (String × α)) : List (String × α) :=
  censusData.foldl (fun processed e =>
    match normF e.1 with
    | none => processed
    | some n =>
        if n = "" then processed
        else
          let st1 := objSet processed n e.2
          if n ≠ e.1 then objSet st1 e.1 e.2 else st1) []

/-- The entry `e` writes the output slot `x` of `processCensusData`: its key
normalizes to a truthy value that equals `x`, or its own raw key is `x` (the
code also writes the raw key whenever it differs from the normalized one; when
they are equal the single write is still at `x = e.1`). -/
def writesTo {α : Type} (normF : String → Option String) (x : String)
    (e : String × α) : Bool :=
  match normF e.1 with
  | none => false
  | some n => if n = "" then false else (n == x) || (e.1 == x)

/-- The value left in slot `x` by the last entry of `l` that writes it. -/
def lastWrite {α : Type} (normF : String → Option String) (x : String)
    (l : List (String × α)) : Option α :=
  l.foldl (fun acc e => if writesTo normF x e then some e.2 else acc) none

/-! ### Tabular source adapters of `fetchCensusTractsData`
(censusDataUtils.js 121-187) -/

/-- JS `Array.prototype.indexOf`: position of the first exact match, `-1` if the
element is absent. -/
def jsIndexOf : List String → String → Int
  | [], _ => -1
  | a :: t, x =>
      if a = x then 0
      else
        let r := jsIndexOf t x
        if r = -1 then -1 else r + 1

/-- JS array read `row[i]`: `undefined` (`none`) outside the range, in
particular at the `-1` an absent header produces. -/
def jsAt (row : List String) (i : Int) : Option String :=
  if i < 0 then none else row.get? i.toNat

/-- Result of a JS `+` so far: a string, or the number `NaN` that
`undefined + undefined` produces. -/
inductive JsAddVal where
  | str (s : String)
  | nan
deriving DecidableEq

/-- First JS `+` of the left-associative chain `row[s] + row[c] + row[t]`:
if either operand is a string the other is coerced (`ToString(undefined)` is
`"undefined"`) and the two are concatenated; `undefined + undefined` is
numeric addition, `NaN`. -/
def jsPlus1 (a b : Option String) : JsAddVal :=
  match a, b with
  | some x, some y => .str (x ++ y)
  | some x, none => .str (x ++ "undefined")
  | none, some y => .str ("undefined" ++ y)
  | none, none => .nan

/-- Second JS `+` of the chain: a string on the left concatenates
(`ToString(undefined)` is `"undefined"`); `NaN + string` concatenates as
`"NaN" ++ string`; `NaN + undefined` stays `NaN`. -/
def jsPlus2 (p : JsAddVal) (c : Option String) : JsAddVal :=
  match p, c with
  | .str s, some z => .str (s ++ z)
  | .str s, none => .str (s ++ "undefined")
  | .nan, some z => .str ("NaN" ++ z)
  | .nan, none => .nan

/-- The property key the chain's result names: `ToPropertyKey(NaN)` is the
string `"NaN"`. -/
def jsKeyStr (p : JsAddVal) : String :=
  match p with
  | .str s => s
  | .nan => "NaN"

/-- The GEOID key `row[stateIdx] + row[countyIdx] + row[tractIdx]` under JS
left-associative `+` on string-or-`undefined` cells. -/
def jsGeoidConcat (a b c : Option String) : String :=
  jsKeyStr (jsPlus2 (jsPlus1 a b) c)

/-- A record contributed by one source for one identifier: field name to cell
value (`none` = `undefined`). -/
abbrev SrcRecord := List (String × Option String)

/-- A source mapping raw identifiers to partial records. -/
abbrev SrcStore := List (String × SrcRecord)

/-- The population adapter of `fetchCensusTractsData` (lines 121-141): header
lookups by `indexOf`, rows of mismatched length skipped, GEOID built as
`row[stateIdx] + row[countyIdx] + row[tractIdx]`. -/
def buildPopulationData (data : List (List String)) : SrcStore :=
  match data with
  | [] => []
  | headers :: rows =>
      if rows.length = 0 then []
      else
        let p1Idx := jsIndexOf headers "P1_001N"
        let stateIdx := jsIndexOf headers "state"
        let countyIdx := jsIndexOf headers "county"
        let tractIdx := jsIndexOf headers "tract"
        rows.foldl (fun acc row =>
          if row.length = headers.length then
            let geoid := jsGeoidConcat (jsAt row stateIdx) (jsAt row countyIdx)
              (jsAt row tractIdx)
            objSet acc geoid [("P1_001N", jsAt row p1Idx)]
          else acc) []

/-- The loop body of the population adapter, with the header indices written
out (they are loop constants); definitionally equal to the fold body of
`buildPopulationData`. -/
def popRowStep (headers : List String) (acc : SrcStore) (row : List String) :
    SrcStore :=
  if row.length = headers.length then
    objSet acc (jsGeoidConcat (jsAt row (jsIndexOf headers "state"))
        (jsAt row (jsIndexOf headers "county"))
        (jsAt row (jsIndexOf headers "tract")))
      [("P1_001N", jsAt row (jsIndexOf headers "P1_001N"))]
  else acc

/-- The ACS profile adapter (lines 143-165): same shape, two extracted fields. -/
def buildAcsData (data : List (List String)) : SrcStore :=
  match data with
  | [] => []
  | headers :: rows =>
      if rows.length = 0 then []
      else
        let empRateIdx := jsIndexOf headers "DP03_0004PE"
        let householdsIdx := jsIndexOf headers "DP02_0001E"
        let stateIdx := jsIndexOf headers "state"
        let countyIdx := jsIndexOf headers "county"
        let tractIdx := jsIndexOf headers "tract"
        rows.foldl (fun acc row =>
          if row.length = headers.length then
            let geoid := jsGeoidConcat (jsAt row stateIdx) (jsAt row countyIdx)
              (jsAt row tractIdx)
            objSet acc geoid
              [("DP03_0004PE", jsAt row empRateIdx), ("DP02_0001E", jsAt row householdsIdx)]
          else acc) []

/-- The income subject-table adapter (lines 167-187). -/
def buildIncomeData (data : List (List String)) : SrcStore :=
  match data with
  | [] => []
  | headers :: rows =>
      if rows.length = 0 then []
      else
        let incomeIdx := jsIndexOf headers "S1901_C01_012E"
        let stateIdx := jsIndexOf headers "state"
        let countyIdx := jsIndexOf headers "county"
        let tractIdx := jsIndexOf headers "tract"
        rows.foldl (fun acc row =>
          if row.length = headers.length then
            let geoid := jsGeoidConcat (jsAt row stateIdx) (jsAt row countyIdx)
              (jsAt row tractIdx)
            objSet acc geoid [("S1901_C01_012E", jsAt row incomeIdx)]
          else acc) []

/-! ### The merge step of `fetchCensusTractsData` (censusDataUtils.js 189-204) -/

/-- JS `populationData[geoid] || {}`. -/
def getRec {α : Type} (st : List (String × List (String × α))) (g : String) :
    List (String × α) :=
  (lookupS st g).getD []

/-- JS `new Set([...keys(pop), ...keys(acs), ...keys(income)])` kept as a list in
Set insertion order. -/
def allGeoids {α : Type} (popD acsD incD : List (String × α)) : List String :=
  ((popD.map Prod.fst ++ acsD.map Prod.fst ++ incD.map Prod.fst).foldl setAdd [])

/-- The per-identifier spread merge `{...pop[g]||{}, ...acs[g]||{}, ...inc[g]||{}}`
of lines 199-203. -/
def mergedRecordAt (popD acsD incD : SrcStore) (g : String) : SrcRecord :=
  mergeRecords (mergeRecords (getRec popD g) (getRec acsD g)) (getRec incD g)

/-- The `allGeoids.forEach` loop building `mergedData` (lines 190-204). -/
def buildMergedData (popD acsD incD : SrcStore) : SrcStore :=
  (allGeoids popD acsD incD).foldl
    (fun st g => objSet st g (mergedRecordAt popD acsD incD g)) []

/-! ### Adoption status (adoptionStatusUtils.js) -/

/-- JS `String.prototype.trim` on the character list: leading and trailing
whitespace removed. -/
def trimChars (l : List Char) : List Char :=
  ((l.dropWhile Char.isWhitespace).reverse.dropWhile Char.isWhitespace).reverse

/-- JS `String.prototype.trim`. -/
def jsTrim (s : String) : String :=
  String.mk (trimChars s.data)

/-- JS `String.prototype.split(',')` on the character list: the segments between
commas; the empty string yields one empty segment, as in JS. -/
def splitCommaChars (l : List Char) : List (List Char) :=
  l.foldr (fun c acc =>
    match acc with
    | cur :: rest => if c = ',' then [] :: cur :: rest else (c :: cur) :: rest
    | [] => [[c]]) [[]]

/-- JS `String.prototype.split(',')`. -/
def jsSplitComma (s : String) : List String :=
  (splitCommaChars s.data).map String.mk

/-- JS `String.prototype.toLowerCase` (ASCII range, which covers the status
tokens the code compares). -/
def jsToLower (s : String) : String :=
  String.mk (s.data.map Char.toLower)

/-- JS `isTractInList(tractId, commaSeparatedList)` (adoptionStatusUtils.js 86-97).
Arguments model arbitrary JS string-or-missing values; `!x` is true for `none`
and for the empty string. -/
def isTractInList (tractId commaSeparatedList : Option String) : Bool :=
  match tractId, commaSeparatedList with
  | some t, some l =>
      if t = "" ∨ l = "" then false
      else
        let std := jsTrim t
        ((jsSplitComma l).map jsTrim).any (fun tract => tract == std)
  | _, _ => false

/-- One parsed CSV row; each column is a string or missing. -/
structure CsvRow where
  censusTract : Option String
  adoptionStatus : Option String
  adoptedBy : Option String
  churches : Option String
  nonProfits : Option String
  localBusiness : Option String
deriving DecidableEq

/-- JS `x || d` on a string-or-missing value: the default replaces `undefined`,
`null` and `""`. -/
def jsOr (o : Option String) (d : String) : String :=
  match o with
  | some s => if s = "" then d else s
  | none => d

/-- The guard and trim of `const censusTract = row["Census Tract"]; if
(censusTract && censusTract.trim())`: the trimmed identifier, or `none` when
the column is missing, empty, or whitespace. -/
def rowTract (r : CsvRow) : Option String :=
  match r.censusTract with
  | some s => if jsTrim s = "" then none else some (jsTrim s)
  | none => none

/-- The first-pass adoption test for a row with identifier `tid`: the explicit
status column case-insensitively equals `"adopted"`, or the row's own
identifier appears in one of the row's own three list columns
(adoptionStatusUtils.js 122-138). -/
def rowAdopted (r : CsvRow) (tid : String) : Bool :=
  (match r.adoptionStatus with
   | some st => jsToLower st == "adopted"
   | none => false)
  || isTractInList (some tid) (some (jsOr r.churches ""))
  || isTractInList (some tid) (some (jsOr r.nonProfits ""))
  || isTractInList (some tid) (some (jsOr r.localBusiness ""))

/-- Pass 1 of `processAdoptionStatus` (lines 111-140): the set of all tract ids
in the CSV and the set marked adopted, both in insertion order. -/
def adoptionPass1 (rows : List CsvRow) : List String × List String :=
  rows.foldl (fun acc r =>
    match rowTract r with
    | some tid =>
        (setAdd acc.1 tid, if rowAdopted r tid then setAdd acc.2 tid else acc.2)
    | none => acc) ([], [])

/-- A value stored in the adoption status map: either a per-tract
classification entry or the reserved `__meta` bookkeeping record, which shares
the same key space. -/
inductive AdoptionValue where
  | entry (status : String) (inCsv : Bool)
      (adoptedBy churches nonProfits localBusiness : String)
  | meta (allCsvTracts adoptedTracts : List String)
deriving DecidableEq

/-- JS `processAdoptionStatus(povertyData)` (adoptionStatusUtils.js 104-175):
pass 1 builds the two sets, pass 2 builds the per-tract entries, and the final
assignment stores the `__meta` record in the same map. -/
def processAdoptionStatus (rows : List CsvRow) : List (String × AdoptionValue) :=
  let p := adoptionPass1 rows
  let m := rows.foldl (fun acc r =>
    match rowTract r with
    | some tid =>
        let isAd := tid ∈ p.2
        objSet acc tid (.entry (if isAd then "adopted" else "not_adopted") true
          (if isAd then jsOr r.adoptedBy "Unknown" else "N/A")
          (jsOr r.churches "N/A") (jsOr r.nonProfits "N/A")
          (jsOr r.localBusiness "N/A"))
    | none => acc) []
  objSet m "__meta" (.meta p.1 p.2)

/-- The classification stored for tract `t`, when the map holds an entry there. -/
def statusAt (m : List (String × AdoptionValue)) (t : String) : Option String :=
  match lookupS m t with
  | some (.entry s _ _ _ _ _) => some s
  | _ => none

/-- Fill colour of adopted tracts in `createAdoptionStatusRenderer`. -/
def greenFill : String := "rgba(34, 197, 94, 0.4)"

/-- Fill colour of in-CSV, not-adopted tracts in `createAdoptionStatusRenderer`. -/
def tomatoFill : String := "rgba(255, 99, 71, 0.4)"

/-- One `Object.entries(adoptionStatusMap).forEach` iteration of
`createAdoptionStatusRenderer`: the `__meta` entry is skipped explicitly; on a
(never occurring) `meta` value under another key both JS conditions read
`undefined` and fail, so nothing is pushed. -/
def rendererStep (acc : List (String × String)) (kv : String × AdoptionValue) :
    List (String × String) :=
  if kv.1 = "__meta" then acc
  else
    match kv.2 with
    | .entry status inCsv _ _ _ _ =>
        if status = "adopted" then acc ++ [(kv.1, greenFill)]
        else if inCsv then acc ++ [(kv.1, tomatoFill)]
        else acc
    | .meta _ _ => acc

/-- The `uniqueValueInfos` list built by `createAdoptionStatusRenderer`
(adoptionStatusUtils.js 182-232) as (value, fill colour) pairs. -/
def createAdoptionStatusRenderer (m : List (String × AdoptionValue)) :
    List (String × String) :=
  m.foldl rendererStep []
/-! ### Aggregate calculator (`calculateTotals`, report utilities 98-190)

Numeric values are modelled as exact fractions of integers (`JSNum`, not
necessarily reduced, positive denominator), which the claims' inputs inhabit
exactly.  `parseFloat` is modelled on decimal/exponent literals (sign, digits,
fraction, exponent, trailing junk ignored, leading whitespace skipped); the
`Infinity` literal and IEEE-754 rounding are outside the model — the census
cells the code consumes are plain decimal strings or non-numeric markers. -/

/-- A JS number as an exact fraction: numerator over (positive) denominator,
not necessarily in lowest terms. -/
structure JSNum where
  num : Int
  den : Int
deriving DecidableEq

/-- Embedding of an integer. -/
def JSNum.ofInt (n : Int) : JSNum :=
  ⟨n, 1⟩

/-- Exact addition of fractions (no reduction). -/
def JSNum.add (a b : JSNum) : JSNum :=
  ⟨a.num * b.den + b.num * a.den, a.den * b.den⟩

/-- Exact division of fractions, keeping the denominator positive. -/
def JSNum.div (a b : JSNum) : JSNum :=
  let n := a.num * b.den
  let d := a.den * b.num
  if d < 0 then ⟨-n, -d⟩ else ⟨n, d⟩

/-- Scaling by a power of ten (the exponent part of a literal). -/
def JSNum.scale10 (q : JSNum) (e : Int) : JSNum :=
  if 0 ≤ e then ⟨q.num * ((10 : Nat) ^ e.toNat : Nat), q.den⟩
  else ⟨q.num, q.den * ((10 : Nat) ^ (-e).toNat : Nat)⟩

/-- A JS attribute value: string, number, or `null` (a missing attribute is the
absence of the key). -/
inductive JSVal where
  | str (s : String)
  | num (q : JSNum)
  | nullV
deriving DecidableEq

/-- Optional leading sign of a JS numeric literal: (isNegative, rest). -/
def parseSign : List Char → Bool × List Char
  | '-' :: t => (true, t)
  | '+' :: t => (false, t)
  | l => (false, l)

/-- Digit run to a natural number. -/
def digitsToNat (ds : List Char) : Nat :=
  ds.foldl (fun acc c => acc * 10 + (c.toNat - '0'.toNat)) 0

/-- JS `parseFloat` on a string: longest valid numeric literal at the front after
leading whitespace; `none` models `NaN`. -/
def parseFloatQ (s : String) : Option JSNum :=
  let l := s.data.dropWhile Char.isWhitespace
  let sgn := parseSign l
  let ipart := sgn.2.span Char.isDigit
  let fpart : List Char × List Char :=
    match ipart.2 with
    | '.' :: t => t.span Char.isDigit
    | _ => ([], ipart.2)
  if ipart.1 = [] ∧ fpart.1 = [] then none
  else
    let m : Int := digitsToNat ipart.1 * ((10 : Nat) ^ fpart.1.length : Nat)
      + digitsToNat fpart.1
    let mant : JSNum := ⟨if sgn.1 then -m else m, ((10 : Nat) ^ fpart.1.length : Nat)⟩
    let expo : Int :=
      match fpart.2 with
      | c :: t =>
          if c = 'e' ∨ c = 'E' then
            let esgn := parseSign t
            let eds := esgn.2.span Char.isDigit
            if eds.1 = [] then 0
            else if esgn.1 then -(digitsToNat eds.1 : Int) else (digitsToNat eds.1 : Int)
          else 0
      | [] => 0
    some (mant.scale10 expo)

/-- JS `parseFloat` applied to an attribute value: numbers pass through, strings
are parsed, `null` coerces to the non-numeric string `"null"`. -/
def jsParseFloat : JSVal → Option JSNum
  | .str s => parseFloatQ s
  | .num q => some q
  | .nullV => none

/-- JS `Math.round`: `⌊x + 1/2⌋` (the ECMAScript round-half-toward-plus-infinity
behaviour), computed by floor division on the fraction. -/
def jsRound (q : JSNum) : Int :=
  Int.fdiv (2 * q.num + q.den) (2 * q.den)

/-- Digits of a natural number with one decimal place: `m` is the value scaled
by ten. -/
def fix1 (m : Nat) : String :=
  Nat.repr (m / 10) ++ "." ++ Nat.repr (m % 10)

/-- JS `Number.prototype.toFixed(1)`, ties rounded to the larger candidate as the
ECMAScript algorithm picks. -/
def toFixed1 (q : JSNum) : String :=
  let n := jsRound ⟨q.num * 10, q.den⟩
  if n < 0 then "-" ++ fix1 n.natAbs else fix1 n.natAbs

/-- Digits of a natural number with two decimal places: `m` is the value scaled
by a hundred. -/
def fix2 (m : Nat) : String :=
  Nat.repr (m / 100) ++ "." ++ (if m % 100 < 10 then "0" else "") ++ Nat.repr (m % 100)

/-- JS `Number.prototype.toFixed(2)`. -/
def toFixed2 (q : JSNum) : String :=
  let n := jsRound ⟨q.num * 100, q.den⟩
  if n < 0 then "-" ++ fix2 n.natAbs else fix2 n.natAbs

/-- Thousands grouping on a reversed digit list: a comma after every third
digit from the right. -/
def group3 : List Char → List Char
  | a :: b :: c :: d :: rest => a :: b :: c :: ',' :: group3 (d :: rest)
  | l => l

/-- JS `Number.prototype.toLocaleString()` on an integer in the en-US grouping the
code relies on. -/
def toLocale (n : Int) : String :=
  (if n < 0 then "-" else "")
    ++ String.mk ((group3 (Nat.repr n.natAbs).data.reverse).reverse)

/-- JS `const sumFields = ["P1_001N", "DP02_0001E"]`. -/
def sumFields : List String := ["P1_001N", "DP02_0001E"]

/-- JS `const avgFields = ["DP03_0004PE", "S1901_C01_012E"]`. -/
def avgFields : List String := ["DP03_0004PE", "S1901_C01_012E"]

/-- The accumulation guard of `calculateTotals` for one feature and one field:
the attribute is present, not `null`, and `parseFloat` of it is not `NaN`;
`none` means the record contributes nothing to sum or count. -/
def fieldContrib (attrs : List (String × JSVal)) (f : String) : Option JSNum :=
  match lookupS attrs f with
  | none => none
  | some .nullV => none
  | some v => jsParseFloat v

/-- JS `totals[field]` after the accumulation loop of `calculateTotals`. -/
def fieldTotal (features : List (List (String × JSVal))) (f : String) : JSNum :=
  features.foldl (fun acc attrs =>
    match fieldContrib attrs f with
    | some q => acc.add q
    | none => acc) (JSNum.ofInt 0)

/-- JS `counts[field]` after the accumulation loop of `calculateTotals`. -/
def fieldCount (features : List (List (String × JSVal))) (f : String) : Nat :=
  features.foldl (fun acc attrs =>
    match fieldContrib attrs f with
    | some _ => acc + 1
    | none => acc) 0

/-- Label chosen for a summed field (report utilities 158-162). -/
def sumLabel (f : String) : String :=
  if f = "P1_001N" then "Total Population"
  else if f = "DP02_0001E" then "Total Households"
  else f

/-- Label chosen for an averaged field (report utilities 173-177). -/
def avgLabel (f : String) : String :=
  if f = "DP03_0004PE" then "Average Employment Rate"
  else if f = "S1901_C01_012E" then "Average Median Household Income"
  else "Average " ++ f

/-- Per-field average formatting (report utilities 179-185): percent with one
decimal, currency with locale grouping, or the generic two-decimal branch. -/
def fmtAvg (f : String) (avg : JSNum) : String :=
  if f = "DP03_0004PE" then toFixed1 avg ++ "%"
  else if f = "S1901_C01_012E" then "$" ++ toLocale (jsRound avg)
  else toFixed2 avg

/-- A value of the result object of `calculateTotals`: the raw counts and
rounded sums are numbers, the formatted averages strings. -/
inductive ResVal where
  | rnum (n : Int)
  | rstr (s : String)
deriving DecidableEq

/-- JS `calculateTotals(features)` (report utilities 98-190).  Each feature is
modelled by its attribute object (`feature.attributes || {}`; a feature without
attributes is the empty object).  The per-field totals and counts of the single
accumulation loop are recomputed per field by `fieldTotal`/`fieldCount`, which
perform the same accumulation. -/
def calculateTotals (features : List (List (String × JSVal))) :
    List (String × ResVal) :=
  if features.length = 0 then []
  else
    let base : List (String × ResVal) :=
      [("featureCount", .rnum (features.length : Int))]
    let withSums := sumFields.foldl (fun acc f =>
      if 0 < fieldCount features f then
        objSet acc (sumLabel f) (.rnum (jsRound (fieldTotal features f)))
      else acc) base
    avgFields.foldl (fun acc f =>
      if 0 < fieldCount features f then
        objSet acc (avgLabel f)
          (.rstr (fmtAvg f ((fieldTotal features f).div
            (JSNum.ofInt (fieldCount features f)))))
      else acc) withSums

/-- The four-feature collection of the aggregate example: every consumed field
carries the values 100, 200, a non-parseable cell, 300. -/
def exampleFeatures (junk : String) : List (List (String × JSVal)) :=
  [ [("P1_001N", .str "100"), ("DP02_0001E", .str "100"),
     ("DP03_0004PE", .str "100"), ("S1901_C01_012E", .str "100")],
    [("P1_001N", .str "200"), ("DP02_0001E", .str "200"),
     ("DP03_0004PE", .str "200"), ("S1901_C01_012E", .str "200")],
    [("P1_001N", .str junk), ("DP02_0001E", .str junk),
     ("DP03_0004PE", .str junk), ("S1901_C01_012E", .str junk)],
    [("P1_001N", .str "300"), ("DP02_0001E", .str "300"),
     ("DP03_0004PE", .str "300"), ("S1901_C01_012E", .str "300")] ]


/-! ## Lemmas on the JS object model -/

/-- Lookup after a property write: the written key reads the new value, every
other key is unchanged. -/
theorem lookupS_objSet {α : Type} (st : List (String × α)) (k x : String) (v : α) :
    lookupS (objSet st k v) x = if x = k then some v else lookupS st x := by
  induction st with
  | nil =>
      simp only [objSet, lookupS]
      by_cases h : k = x
      · rw [if_pos h, if_pos h.symm]
      · rw [if_neg h, if_neg (fun hx : x = k => h hx.symm)]
  | cons e t ih =>
      obtain ⟨ek, ev⟩ := e
      simp only [objSet]
      by_cases h : ek = k
      · subst h
        rw [if_pos rfl]
        simp only [lookupS]
        by_cases hx : ek = x
        · rw [if_pos hx, if_pos hx.symm]
        · rw [if_neg hx, if_neg (fun hk : x = ek => hx hk.symm), if_neg hx]
      · rw [if_neg h]
        simp only [lookupS, ih]
        by_cases hx : ek = x
        · subst hx
          rw [if_pos rfl, if_pos rfl,
            if_neg (fun hk : ek = k => h hk)]
        · rw [if_neg hx, if_neg hx]

/-- A property write never empties an object. -/
theorem objSet_ne_nil {α : Type} (st : List (String × α)) (k : String) (v : α) :
    objSet st k v ≠ [] := by
  cases st with
  | nil => simp [objSet]
  | cons e t =>
      simp only [objSet]
      split <;> simp

/-- Membership after a property write comes from the old object or is the
written pair. -/
theorem mem_objSet {α : Type} (st : List (String × α)) (k : String) (v : α)
    (p : String × α) (h : p ∈ objSet st k v) : p ∈ st ∨ p = (k, v) := by
  induction st with
  | nil =>
      simp only [objSet] at h
      right
      simpa using h
  | cons e t ih =>
      simp only [objSet] at h
      by_cases he : e.1 = k
      · rw [if_pos he] at h
        rcases List.mem_cons.mp h with h1 | h1
        · right; exact h1
        · left; exact List.mem_cons_of_mem _ h1
      · rw [if_neg he] at h
        rcases List.mem_cons.mp h with h1 | h1
        · left; simp [h1]
        · rcases ih h1 with h2 | h2
          · left; exact List.mem_cons_of_mem _ h2
          · right; exact h2

/-- First-match lookup distributes over append through `optOr`. -/
theorem lookupS_append {α : Type} (l1 l2 : List (String × α)) (k : String) :
    lookupS (l1 ++ l2) k = optOr (lookupS l1 k) (lookupS l2 k) := by
  induction l1 with
  | nil => simp [lookupS, optOr]
  | cons e t ih =>
      rw [List.cons_append]
      simp only [lookupS]
      by_cases h : e.1 = k
      · rw [if_pos h, if_pos h]; rfl
      · rw [if_neg h, if_neg h, ih]

/-- Dropping an empty fallback from `optOr`. -/
theorem optOr_none {α : Type} (a : Option α) : optOr a none = a := by
  cases a <;> rfl

/-- Associativity of `optOr`. -/
theorem optOr_assoc {α : Type} (a b c : Option α) :
    optOr (optOr a b) c = optOr a (optOr b c) := by
  cases a <;> rfl

/-- Lookup in a spread `{...a, ...b}`: the last occurrence in `b` wins, else
the first occurrence in `a`. -/
theorem lookupS_mergeRecords {α : Type} (a b : List (String × α)) (k : String) :
    lookupS (mergeRecords a b) k = optOr (revLookup b k) (lookupS a k) := by
  induction b generalizing a with
  | nil => simp [mergeRecords, revLookup, lookupS, optOr]
  | cons e t ih =>
      have step : mergeRecords a (e :: t) = mergeRecords (objSet a e.1 e.2) t := rfl
      have hrev : revLookup (e :: t) k = optOr (revLookup t k) (lookupS [e] k) := by
        rw [revLookup, List.reverse_cons, lookupS_append]; rfl
      rw [step, ih, hrev, optOr_assoc]
      congr 1
      rw [lookupS_objSet]
      simp only [lookupS]
      by_cases h : k = e.1
      · rw [if_pos h, if_pos h.symm]; rfl
      · rw [if_neg h, if_neg (fun he : e.1 = k => h he.symm)]; rfl

/-- A key is absent exactly when lookup is `undefined`. -/
theorem lookupS_eq_none_iff {α : Type} (l : List (String × α)) (k : String) :
    lookupS l k = none ↔ k ∉ l.map Prod.fst := by
  induction l with
  | nil => simp [lookupS]
  | cons e t ih =>
      obtain ⟨ek, ev⟩ := e
      simp only [lookupS, List.map_cons, List.mem_cons]
      by_cases h : ek = k
      · subst h
        simp
      · rw [if_neg h]
        simp only [ih]
        constructor
        · rintro hn (hk | hk)
          · exact h hk.symm
          · exact hn hk
        · intro hn hk
          exact hn (Or.inr hk)

/-- Under distinct keys, last-match and first-match lookup agree. -/
theorem revLookup_eq_lookupS {α : Type} (l : List (String × α)) (k : String)
    (h : nodupKeys l) : revLookup l k = lookupS l k := by
  induction l with
  | nil => rfl
  | cons e t ih =>
      obtain ⟨ek, ev⟩ := e
      have hn : ek ∉ t.map Prod.fst ∧ nodupKeys t := by
        simpa [nodupKeys] using h
      have ht : lookupS t.reverse k = lookupS t k := ih hn.2
      rw [revLookup, List.reverse_cons, lookupS_append, ht]
      simp only [lookupS]
      by_cases hk : ek = k
      · subst hk
        have : lookupS t ek = none := (lookupS_eq_none_iff t ek).mpr hn.1
        rw [this, if_pos rfl]; rfl
      · rw [if_neg hk, if_neg hk, optOr_none]

/-- Membership in a JS `Set` after one `add`. -/
theorem mem_setAdd (l : List String) (x y : String) :
    y ∈ setAdd l x ↔ y ∈ l ∨ y = x := by
  unfold setAdd
  by_cases h : x ∈ l
  · rw [if_pos h]
    constructor
    · exact Or.inl
    · rintro (hy | rfl)
      · exact hy
      · exact h
  · rw [if_neg h]
    simp

/-- Membership in a JS `Set` built by folding `add` over a list. -/
theorem mem_foldl_setAdd (ks : List String) (acc : List String) (y : String) :
    y ∈ ks.foldl setAdd acc ↔ y ∈ acc ∨ y ∈ ks := by
  induction ks generalizing acc with
  | nil => simp
  | cons a t ih =>
      simp only [List.foldl_cons, ih, mem_setAdd, List.mem_cons]
      tauto

/-- Folding writes whose value is a function of the key: each visited key reads
that function. -/
theorem lookupS_foldl_objSet_fun {α : Type} (h : String → α) (ks : List String)
    (st : List (String × α)) (x : String) :
    lookupS (ks.foldl (fun st g => objSet st g (h g)) st) x
      = if x ∈ ks then some (h x) else lookupS st x := by
  induction ks generalizing st with
  | nil => simp
  | cons a t ih =>
      simp only [List.foldl_cons, ih, lookupS_objSet, List.mem_cons]
      by_cases hx : x ∈ t
      · simp [hx]
      · by_cases hxa : x = a
        · simp [hx, hxa]
        · simp [hx, hxa]

/-! ## Lemmas on the normalizer -/

/-- With enough fuel the padding loop reaches its exit condition: fuel at
least `11 - length` yields the left zero-padding. -/
theorem padFuel_spec (n : Nat) (l : List Char) (h : 11 - l.length ≤ n) :
    padFuel n l = List.replicate (11 - l.length) '0' ++ l := by
  induction n generalizing l with
  | zero =>
      have : 11 - l.length = 0 := Nat.le_zero.mp h
      rw [this]
      simp only [List.replicate, List.nil_append]
      rfl
  | succ n ih =>
      simp only [padFuel]
      by_cases hl : l.length < 11
      · rw [if_pos hl]
        have hfuel : 11 - ('0' :: l).length ≤ n := by
          simp only [List.length_cons]
          omega
        rw [ih _ hfuel]
        have hlen : 11 - l.length = (11 - ('0' :: l).length) + 1 := by
          simp only [List.length_cons]
          omega
        rw [hlen, List.replicate_succ', List.append_assoc]
        rfl
      · rw [if_neg hl]
        have : 11 - l.length = 0 := by omega
        rw [this]
        rfl

/-- The padding loop as a closed form. -/
theorem padTo11_eq (l : List Char) :
    padTo11 l = List.replicate (11 - l.length) '0' ++ l :=
  padFuel_spec 11 l (by omega)

/-- The padding loop stops exactly at eleven characters (or leaves longer
input alone). -/
theorem length_padTo11 (l : List Char) :
    (padTo11 l).length = max 11 l.length := by
  rw [padTo11_eq]
  simp only [List.length_append, List.length_replicate]
  omega

/-- The normalizer's character pipeline always emits exactly eleven
characters. -/
theorem length_normTractChars (l : List Char) :
    (normTractChars l).length = 11 := by
  unfold normTractChars truncTo11
  by_cases h : (padTo11 (strip14000 (stripNonDigits l))).length > 11
  · rw [if_pos h]
    simp only [List.length_take]
    omega
  · rw [if_neg h]
    have := length_padTo11 (strip14000 (stripNonDigits l))
    omega

/-- Every character the pipeline emits is a decimal digit. -/
theorem digits_normTractChars (l : List Char) (c : Char)
    (h : c ∈ normTractChars l) : c.isDigit = true := by
  have hpad : ∀ x ∈ padTo11 (strip14000 (stripNonDigits l)), x.isDigit = true := by
    intro x hx
    rw [padTo11_eq] at hx
    rcases List.mem_append.mp hx with hx | hx
    · have := List.eq_of_mem_replicate hx
      subst this
      decide
    · unfold strip14000 at hx
      have hx2 : x ∈ stripNonDigits l := by
        by_cases hs : starts14000 (stripNonDigits l)
        · rw [if_pos hs] at hx
          exact List.mem_of_mem_drop hx
        · rwa [if_neg hs] at hx
      exact List.of_mem_filter hx2
  unfold normTractChars truncTo11 at h
  by_cases ht : (padTo11 (strip14000 (stripNonDigits l))).length > 11
  · rw [if_pos ht] at h
    exact hpad c (List.mem_of_mem_take h)
  · rw [if_neg ht] at h
    exact hpad c h

/-! ## Lemmas on `processCensusData` -/

/-- One loop iteration of `processCensusData`: the slot `x` receives the
entry's record exactly when the entry writes `x`, and is untouched otherwise. -/
theorem lookupS_processStep {α : Type} (normF : String → Option String)
    (st : List (String × α)) (e : String × α) (x : String) :
    lookupS ((fun processed e =>
      match normF e.1 with
      | none => processed
      | some n =>
          if n = "" then processed
          else
            let st1 := objSet processed n e.2
            if n ≠ e.1 then objSet st1 e.1 e.2 else st1) st e) x
      = if writesTo normF x e then some e.2 else lookupS st x := by
  unfold writesTo
  cases hn : normF e.1 with
  | none => simp [hn]
  | some n =>
      simp only [hn]
      by_cases hne : n = ""
      · simp [hne]
      · simp only [if_neg hne]
        by_cases hnk : n = e.1
        · simp only [hnk, ne_eq, not_true_eq_false, if_false, lookupS_objSet]
          by_cases hx : x = e.1
          · simp [hx]
          · have h1 : (e.1 == x) = false :=
              beq_eq_false_iff_ne.mpr (fun h => hx h.symm)
            simp [hx, h1]
        · simp only [ne_eq, hnk, not_false_eq_true, if_true, lookupS_objSet]
          by_cases hx : x = e.1
          · have h1 : (e.1 == x) = true := by simp [hx.symm]
            simp [hx, h1]
          · by_cases hxn : x = n
            · have h1 : (n == x) = true := by simp [hxn.symm]
              simp [hx, hxn, h1]
            · have h1 : (n == x) = false :=
                beq_eq_false_iff_ne.mpr (fun h => hxn h.symm)
              have h2 : (e.1 == x) = false :=
                beq_eq_false_iff_ne.mpr (fun h => hx h.symm)
              simp [hx, hxn, h1, h2]

/-- The loop of `processCensusData` over any starting object: each slot holds
the record of the last entry writing it, else the starting object's value. -/
theorem lookupS_processFold {α : Type} (normF : String → Option String)
    (l : List (String × α)) (st : List (String × α)) (x : String) :
    lookupS (l.foldl (fun processed e =>
      match normF e.1 with
      | none => processed
      | some n =>
          if n = "" then processed
          else
            let st1 := objSet processed n e.2
            if n ≠ e.1 then objSet st1 e.1 e.2 else st1) st) x
      = l.foldl (fun acc e => if writesTo normF x e then some e.2 else acc)
          (lookupS st x) := by
  induction l generalizing st with
  | nil => rfl
  | cons e t ih =>
      rw [List.foldl_cons, List.foldl_cons, ih, lookupS_processStep]

/-- Helper form of the last-write characterization, shared by the claim
theorems below. -/
theorem lookupS_processCensusData {α : Type} (normF : String → Option String)
    (l : List (String × α)) (x : String) :
    lookupS (processCensusData normF l) x = lastWrite normF x l := by
  unfold processCensusData lastWrite
  rw [lookupS_processFold]
  rfl

/-- If exactly one entry (up to equality of the pair) writes a slot, the slot
holds that entry's record. -/
theorem lastWrite_single {α : Type} (normF : String → Option String) (x : String)
    (l : List (String × α)) (e0 : String × α) (hmem : e0 ∈ l)
    (hw : writesTo normF x e0 = true)
    (hother : ∀ e ∈ l, e ≠ e0 → writesTo normF x e = false) :
    lastWrite normF x l = some e0.2 := by
  have keep : ∀ (t : List (String × α)), (∀ e ∈ t, e ≠ e0 → writesTo normF x e = false) →
      t.foldl (fun acc e => if writesTo normF x e then some e.2 else acc) (some e0.2)
        = some e0.2 := by
    intro t
    induction t with
    | nil => intro _; rfl
    | cons a s ih =>
        intro ht
        rw [List.foldl_cons]
        by_cases ha : a = e0
        · subst ha
          rw [if_pos hw]
          exact ih (fun e he hne => ht e (List.mem_cons_of_mem _ he) hne)
        · rw [if_neg (by simp [ht a (List.mem_cons_self a s) ha])]
          exact ih (fun e he hne => ht e (List.mem_cons_of_mem _ he) hne)
  unfold lastWrite
  induction l with
  | nil => cases hmem
  | cons a t ih =>
      rw [List.foldl_cons]
      by_cases ha : a = e0
      · subst ha
        rw [if_pos hw]
        exact keep t (fun e he hne => hother e (List.mem_cons_of_mem _ he) hne)
      · rw [if_neg (by simp [hother a (List.mem_cons_self a t) ha])]
        rcases List.mem_cons.mp hmem with h1 | h1
        · exact absurd h1.symm ha
        · exact ih h1 (fun e he hne => hother e (List.mem_cons_of_mem _ he) hne)

/-! ## Claim theorems -/

/-- C2: for every raw tract identifier `r`, `normalizeTractGeoid r` is `null`
exactly when `r` is empty or null, and otherwise is a string of exactly eleven
decimal digit characters. -/
theorem normalizeTractGeoid_canonicalShape (r : Option String) :
    (normalizeTractGeoid r = none ↔ r = none ∨ r = some "") ∧
    (∀ s, normalizeTractGeoid r = some s →
      s.length = 11 ∧ s.data.all Char.isDigit = true) := by
  cases r with
  | none =>
      constructor
      · simp [normalizeTractGeoid]
      · intro s h
        simp [normalizeTractGeoid] at h
  | some s0 =>
      by_cases h0 : s0 = ""
      · subst h0
        constructor
        · simp [normalizeTractGeoid]
        · intro s h
          simp [normalizeTractGeoid] at h
      · constructor
        · simp [normalizeTractGeoid, h0]
        · intro s h
          simp only [normalizeTractGeoid, if_neg h0, Option.some.injEq] at h
          subst h
          refine ⟨length_normTractChars s0.data, ?_⟩
          rw [List.all_eq_true]
          intro c hc
          exact digits_normTractChars s0.data c hc

/-- Witness for C2 at the raw identifier `"6001400100"`, which normalizes to
the canonical `"06001400100"`. -/
theorem normalizeTractGeoid_canonicalShape_witness :
    ("06001400100" : String).length = 11 ∧
      "06001400100".data.all Char.isDigit = true :=
  (normalizeTractGeoid_canonicalShape (some "6001400100")).2 "06001400100" (by decide)

/-- C7 counterexample: the raw identifier `"1400014000123456"` normalizes to
the canonical-shaped (eleven decimal digits) `"14000123456"`, yet normalizing
that output again gives `"00000123456"`, so `normalizeTractGeoid` is not
idempotent on every canonical-shaped output: the sentinel strip re-fires on an
output that begins with the digits 14000. -/
theorem normalizeTract_not_idempotent :
    normalizeTractGeoid (some "1400014000123456") = some "14000123456" ∧
    ("14000123456" : String).length = 11 ∧
    "14000123456".data.all Char.isDigit = true ∧
    normalizeTractGeoid (some "14000123456") ≠ some "14000123456" := by
  refine ⟨by decide, by decide, by decide, by decide⟩

/-- C7 as amended: `normalizeTractGeoid` is idempotent on every non-null raw
identifier whose normalized form is canonical-shaped, provided that normalized
form does not begin with the sentinel digits `14000` (on which the prefix strip
fires again). -/
theorem normalizeTract_idem (r : Option String) (s : String)
    (h : normalizeTractGeoid r = some s) (h14 : starts14000 s.data = false) :
    normalizeTractGeoid (some s) = some s := by
  cases r with
  | none => simp [normalizeTractGeoid] at h
  | some s0 =>
      by_cases h0 : s0 = ""
      · simp [normalizeTractGeoid, h0] at h
      · simp only [normalizeTractGeoid, if_neg h0, Option.some.injEq] at h
        subst h
        have hlen : (normTractChars s0.data).length = 11 := length_normTractChars s0.data
        have hdig : ∀ c ∈ normTractChars s0.data, c.isDigit = true :=
          digits_normTractChars s0.data
        have hne : String.mk (normTractChars s0.data) ≠ "" := by
          intro hcon
          have hdata : normTractChars s0.data = [] := congrArg String.data hcon
          rw [hdata] at hlen
          simp at hlen
        simp only [normalizeTractGeoid, if_neg hne, Option.some.injEq]
        have h1 : stripNonDigits (normTractChars s0.data) = normTractChars s0.data :=
          List.filter_eq_self.mpr hdig
        have h2 : strip14000 (normTractChars s0.data) = normTractChars s0.data := by
          unfold strip14000
          rw [if_neg (by simp [show starts14000 (normTractChars s0.data) = false from h14])]
        have h3 : padTo11 (normTractChars s0.data) = normTractChars s0.data := by
          rw [padTo11_eq, hlen]
          simp
        have h4 : truncTo11 (normTractChars s0.data) = normTractChars s0.data := by
          unfold truncTo11
          rw [if_neg (by rw [hlen]; omega)]
        have hfix : normTractChars (normTractChars s0.data) = normTractChars s0.data := by
          conv_lhs => rw [normTractChars]
          rw [h1, h2, h3, h4]
        rw [hfix]

/-- Witness for C7 as amended: the canonical form of `"6001400100"` does not
start with `14000` and is a fixed point of the normalizer. -/
theorem normalizeTract_idem_witness :
    normalizeTractGeoid (some "06001400100") = some "06001400100" :=
  normalizeTract_idem (some "6001400100") "06001400100" (by decide) (by decide)

/-- C1 counterexample: the raw keys `"06001400100"` and `"6001400100"` both
normalize to the canonical `"06001400100"`, yet `processCensusData` leaves the
canonical slot holding only the later raw identifier's record — not the
field-wise merge of the two — and reversing the iteration order changes the
result. -/
theorem processCensusData_collision_counterexample :
    lookupS (processCensusData normalizeTractKey
        [("06001400100", [("A", "1")]), ("6001400100", [("B", "2")])])
      "06001400100" = some [("B", "2")] ∧
    mergeRecords [("A", "1")] [("B", "2")] = [("A", "1"), ("B", "2")] ∧
    ([("B", "2")] : List (String × String)) ≠ [("A", "1"), ("B", "2")] ∧
    lookupS (processCensusData normalizeTractKey
        [("6001400100", [("B", "2")]), ("06001400100", [("A", "1")])])
      "06001400100" = some [("A", "1")] := by
  refine ⟨by decide, by decide, by decide, by decide⟩

/-- C1 as amended: for every normalize function and input mapping, each slot of
the object `processCensusData` produces holds the whole record of the LAST
entry that writes it (an entry writes the slot named by its truthy normalized
key and, when different, by its raw key) — whole-record last-write-wins in
iteration order, not a field-wise merge, and therefore iteration-order
dependent on collisions. -/
theorem processCensusData_last_write_wins {α : Type}
    (normF : String → Option String) (l : List (String × α)) (x : String) :
    lookupS (processCensusData normF l) x = lastWrite normF x l :=
  lookupS_processCensusData normF l x

/-- C4 counterexample: with a second raw key `"060014001001"` (twelve digits,
truncated to the same canonical form), the canonical key and the first raw key
`"6001400100"` are both present in the processed object but resolve to two
different records. -/
theorem processCensusData_alias_counterexample :
    lookupS (processCensusData normalizeTractKey
        [("6001400100", [("A", "1")]), ("060014001001", [("B", "2")])])
      "06001400100" = some [("B", "2")] ∧
    lookupS (processCensusData normalizeTractKey
        [("6001400100", [("A", "1")]), ("060014001001", [("B", "2")])])
      "6001400100" = some [("A", "1")] ∧
    ([("B", "2")] : List (String × String)) ≠ [("A", "1")] := by
  refine ⟨by decide, by decide, by decide⟩

/-- C4 as amended: for a key `k` whose truthy normalized form `n` differs from
`k`, the processed object resolves both `n` and `k` to the same record — the
one stored for `k` — provided no other entry of the mapping writes either slot
(no other key normalizes to `n` or to `k`, and neither occurs as another raw
key).  Sameness is record equality; the code stores one shared reference. -/
theorem processCensusData_dual_key {α : Type} (normF : String → Option String)
    (l : List (String × α)) (k n : String) (r : α)
    (hmem : (k, r) ∈ l) (hn : normF k = some n) (hnn : n ≠ "") (hne : n ≠ k)
    (honly : ∀ e ∈ l, e ≠ (k, r) →
      writesTo normF n e = false ∧ writesTo normF k e = false) :
    lookupS (processCensusData normF l) n = some r ∧
    lookupS (processCensusData normF l) k = some r := by
  have hwn : writesTo normF n (k, r) = true := by
    unfold writesTo
    rw [hn]
    simp [hnn]
  have hwk : writesTo normF k (k, r) = true := by
    unfold writesTo
    rw [hn]
    simp [hnn]
  constructor
  · rw [lookupS_processCensusData]
    exact lastWrite_single normF n l (k, r) hmem hwn (fun e he h => (honly e he h).1)
  · rw [lookupS_processCensusData]
    exact lastWrite_single normF k l (k, r) hmem hwk (fun e he h => (honly e he h).2)

/-- Witness for C4 as amended: a single entry keyed `"6001400100"` is readable
at the canonical key `"06001400100"` and at its raw key, with the same record. -/
theorem processCensusData_dual_key_witness :
    lookupS (processCensusData normalizeTractKey [("6001400100", [("A", "1")])])
      "06001400100" = some [("A", "1")] ∧
    lookupS (processCensusData normalizeTractKey [("6001400100", [("A", "1")])])
      "6001400100" = some [("A", "1")] :=
  processCensusData_dual_key normalizeTractKey [("6001400100", [("A", "1")])]
    "6001400100" "06001400100" [("A", "1")]
    (by decide) (by decide) (by decide) (by decide) (by decide)

/-- C3: in the merge step of `fetchCensusTractsData` each identifier of the
key union is stored with the spread of its three per-source records in the
fixed order population, ACS profile, income subject table; on a field-name
collision the later-priority source's value is the one read back (income over
profile over population). -/
theorem mergeStep_laterSourceWins (popD acsD incD : SrcStore) (g f : String)
    (hg : g ∈ allGeoids popD acsD incD)
    (hp : nodupKeys (getRec popD g)) (ha : nodupKeys (getRec acsD g))
    (hi : nodupKeys (getRec incD g)) :
    lookupS (buildMergedData popD acsD incD) g
      = some (mergedRecordAt popD acsD incD g) ∧
    (∀ v, lookupS (getRec incD g) f = some v →
      lookupS (mergedRecordAt popD acsD incD g) f = some v) ∧
    (lookupS (getRec incD g) f = none →
      ∀ v, lookupS (getRec acsD g) f = some v →
        lookupS (mergedRecordAt popD acsD incD g) f = some v) ∧
    (lookupS (getRec incD g) f = none → lookupS (getRec acsD g) f = none →
      ∀ v, lookupS (getRec popD g) f = some v →
        lookupS (mergedRecordAt popD acsD incD g) f = some v) := by
  have hkey : lookupS (mergedRecordAt popD acsD incD g) f
      = optOr (lookupS (getRec incD g) f)
          (optOr (lookupS (getRec acsD g) f) (lookupS (getRec popD g) f)) := by
    unfold mergedRecordAt
    rw [lookupS_mergeRecords, revLookup_eq_lookupS _ _ hi,
      lookupS_mergeRecords, revLookup_eq_lookupS _ _ ha]
  refine ⟨?_, ?_, ?_, ?_⟩
  · unfold buildMergedData
    rw [lookupS_foldl_objSet_fun, if_pos hg]
  · intro v hv
    rw [hkey, hv]
    rfl
  · intro h1 v hv
    rw [hkey, h1, hv]
    rfl
  · intro h1 h2 v hv
    rw [hkey, h1, h2, hv]
    rfl

/-- Witness for C3: all three sources provide field `"X"` for identifier
`"g"`; the merged record reads back the income-table (last-priority) value. -/
theorem mergeStep_laterSourceWins_witness :
    lookupS (mergedRecordAt [("g", [("X", some "pop")])]
      [("g", [("X", some "acs")])] [("g", [("X", some "inc")])] "g") "X"
      = some (some "inc") :=
  (mergeStep_laterSourceWins [("g", [("X", some "pop")])]
    [("g", [("X", some "acs")])] [("g", [("X", some "inc")])] "g" "X"
    (by decide) (by decide) (by decide) (by decide)).2.1 (some "inc") (by decide)

/-- The population adapter is the fold of its row step. -/
theorem buildPopulationData_eq (headers : List String) (rows : List (List String)) :
    buildPopulationData (headers :: rows)
      = if rows.length = 0 then [] else rows.foldl (popRowStep headers) [] := rfl

/-- Shape of the GEOID key when at least one cell of the chain is
`undefined`: it contains the text `"undefined"` (a single missing cell was
string-concatenated), or it starts with `"NaN"` (the first two cells were both
`undefined`, so their `+` was numeric). -/
theorem jsGeoidConcat_shape (a b c : Option String)
    (h : a = none ∨ b = none ∨ c = none) :
    (∃ u v : String, jsGeoidConcat a b c = u ++ "undefined" ++ v) ∨
    (∃ w : String, jsGeoidConcat a b c = "NaN" ++ w) := by
  rcases a with _ | x
  · rcases b with _ | y
    · rcases c with _ | z
      · refine Or.inr ⟨"", ?_⟩
        rw [String.append_empty]
        rfl
      · exact Or.inr ⟨z, rfl⟩
    · rcases c with _ | z
      · refine Or.inl ⟨"", y ++ "undefined", ?_⟩
        simp only [jsGeoidConcat, jsPlus1, jsPlus2, jsKeyStr]
        rw [String.empty_append, String.append_assoc]
      · refine Or.inl ⟨"", y ++ z, ?_⟩
        simp only [jsGeoidConcat, jsPlus1, jsPlus2, jsKeyStr]
        rw [String.empty_append, String.append_assoc]
  · rcases b with _ | y
    · rcases c with _ | z
      · exact Or.inl ⟨x, "undefined", rfl⟩
      · exact Or.inl ⟨x, z, rfl⟩
    · rcases c with _ | z
      · refine Or.inl ⟨x ++ y, "", ?_⟩
        rw [String.append_empty]
        rfl
      · rcases h with h | h | h <;> exact absurd h (by simp)

/-- C5 counterexample: a population matrix whose header lacks the required
`state` key column still contributes one entry per well-shaped row — keyed by
a malformed identifier containing the text `"undefined"` — rather than an
empty mapping; with both `state` and `county` absent the two `undefined` reads
add numerically to `NaN` and the key starts with `"NaN"`. -/
theorem adapter_missing_key_counterexample :
    buildPopulationData [["P1_001N", "county", "tract"], ["100", "013", "353001"]]
      = [("undefined013353001", [("P1_001N", some "100")])] ∧
    buildPopulationData [["P1_001N", "county", "tract"], ["100", "013", "353001"]]
      ≠ [] ∧
    buildPopulationData [["P1_001N", "tract"], ["100", "353001"]]
      = [("NaN353001", [("P1_001N", some "100")])] := by
  refine ⟨by decide, by decide, by decide⟩

/-- C5 as amended: when a required key column (`state`, `county` or `tract`)
is absent from the header, `indexOf` yields `-1`, the row read yields
`undefined`, and the adapter still emits entries — one per row matching the
header length — under malformed keys: each key contains the text
`"undefined"` where a missing cell was concatenated, or begins with `"NaN"`
when the `state` and `county` cells were both `undefined` (their
left-associative `+` is numeric); the mapping is non-empty as soon as one
data row is well-shaped. -/
theorem adapter_missing_key (headers : List String) (rows : List (List String))
    (hmiss : jsIndexOf headers "state" = -1 ∨ jsIndexOf headers "county" = -1 ∨
      jsIndexOf headers "tract" = -1) :
    (∀ p ∈ buildPopulationData (headers :: rows),
      (∃ u v : String, p.1 = u ++ "undefined" ++ v) ∨
      (∃ w : String, p.1 = "NaN" ++ w)) ∧
    ((∃ row ∈ rows, row.length = headers.length) →
      buildPopulationData (headers :: rows) ≠ []) := by
  have hneg : ∀ r : List String, jsAt r (-1) = none := by
    intro r
    unfold jsAt
    rw [if_pos (by norm_num : (-1 : Int) < 0)]
  have hgeoid : ∀ row : List String,
      (∃ u v : String,
        jsGeoidConcat (jsAt row (jsIndexOf headers "state"))
            (jsAt row (jsIndexOf headers "county"))
            (jsAt row (jsIndexOf headers "tract"))
          = u ++ "undefined" ++ v) ∨
      (∃ w : String,
        jsGeoidConcat (jsAt row (jsIndexOf headers "state"))
            (jsAt row (jsIndexOf headers "county"))
            (jsAt row (jsIndexOf headers "tract"))
          = "NaN" ++ w) := by
    intro row
    refine jsGeoidConcat_shape _ _ _ ?_
    rcases hmiss with h | h | h
    · exact Or.inl (by rw [h, hneg row])
    · exact Or.inr (Or.inl (by rw [h, hneg row]))
    · exact Or.inr (Or.inr (by rw [h, hneg row]))
  have aux : ∀ (rs : List (List String)) (acc : SrcStore),
      (∀ q ∈ acc, (∃ u v : String, q.1 = u ++ "undefined" ++ v) ∨
        (∃ w : String, q.1 = "NaN" ++ w)) →
      ∀ q ∈ rs.foldl (popRowStep headers) acc,
        (∃ u v : String, q.1 = u ++ "undefined" ++ v) ∨
        (∃ w : String, q.1 = "NaN" ++ w) := by
    intro rs
    induction rs with
    | nil => intro acc hacc q hq; exact hacc q hq
    | cons row rt ih =>
        intro acc hacc q hq
        rw [List.foldl_cons] at hq
        refine ih (popRowStep headers acc row) ?_ q hq
        intro q' hq'
        unfold popRowStep at hq'
        by_cases hlen : row.length = headers.length
        · rw [if_pos hlen] at hq'
          rcases mem_objSet _ _ _ _ hq' with hmem | hmem
          · exact hacc q' hmem
          · rw [hmem]
            exact hgeoid row
        · rw [if_neg hlen] at hq'
          exact hacc q' hq'
  have auxne : ∀ (rs : List (List String)) (acc : SrcStore),
      (∃ row ∈ rs, row.length = headers.length) ∨ acc ≠ [] →
      rs.foldl (popRowStep headers) acc ≠ [] := by
    intro rs
    induction rs with
    | nil =>
        intro acc hacc
        rcases hacc with ⟨row, hmem, _⟩ | hne
        · cases hmem
        · exact hne
    | cons row rt ih =>
        intro acc hacc
        rw [List.foldl_cons]
        by_cases hlen : row.length = headers.length
        · refine ih (popRowStep headers acc row) (Or.inr ?_)
          unfold popRowStep
          rw [if_pos hlen]
          exact objSet_ne_nil _ _ _
        · refine ih (popRowStep headers acc row) ?_
          rcases hacc with ⟨row', hmem, hlen'⟩ | hne
          · rcases List.mem_cons.mp hmem with h1 | h1
            · exact absurd (h1 ▸ hlen') hlen
            · exact Or.inl ⟨row', h1, hlen'⟩
          · right
            unfold popRowStep
            rw [if_neg hlen]
            exact hne
  constructor
  · intro p hp
    rw [buildPopulationData_eq] at hp
    by_cases hr : rows.length = 0
    · rw [if_pos hr] at hp
      cases hp
    · rw [if_neg hr] at hp
      exact aux rows [] (by intro q hq; cases hq) p hp
  · rintro ⟨row, hmem, hlen⟩
    rw [buildPopulationData_eq]
    have hr : ¬ rows.length = 0 := by
      intro h0
      rw [List.length_eq_zero] at h0
      rw [h0] at hmem
      cases hmem
    rw [if_neg hr]
    exact auxne rows [] (Or.inl ⟨row, hmem, hlen⟩)

/-- Witness for C5 as amended at the counterexample matrix: its single
produced key splits around the text `"undefined"` and the mapping is
non-empty. -/
theorem adapter_missing_key_witness :
    ((∃ u v : String, "undefined013353001" = u ++ "undefined" ++ v) ∨
      (∃ w : String, "undefined013353001" = "NaN" ++ w)) ∧
    buildPopulationData [["P1_001N", "county", "tract"], ["100", "013", "353001"]]
      ≠ [] := by
  have h := adapter_missing_key ["P1_001N", "county", "tract"]
    [["100", "013", "353001"]] (Or.inl (by decide))
  constructor
  · exact h.1 ("undefined013353001", [("P1_001N", some "100")]) (by decide)
  · exact h.2 ⟨["100", "013", "353001"], by decide⟩

/-- C9: `isTractInList` returns `true` exactly when both arguments are
non-null, non-empty strings and some comma-separated entry of the list trims
to exactly the trimmed identifier (plain string equality, no normalization);
on an empty or null argument it returns `false`. -/
theorem isTractInList_spec (tractId commaSeparatedList : Option String) :
    (isTractInList tractId commaSeparatedList = true ↔
      ∃ t l, tractId = some t ∧ commaSeparatedList = some l ∧ t ≠ "" ∧ l ≠ "" ∧
        ∃ e ∈ jsSplitComma l, jsTrim e = jsTrim t) ∧
    ((tractId = none ∨ tractId = some "" ∨ commaSeparatedList = none ∨
        commaSeparatedList = some "") →
      isTractInList tractId commaSeparatedList = false) := by
  constructor
  · cases tractId with
    | none => simp [isTractInList]
    | some t =>
        cases commaSeparatedList with
        | none => simp [isTractInList]
        | some l =>
            by_cases ht : t = ""
            · simp [isTractInList, ht]
            · by_cases hl : l = ""
              · simp [isTractInList, ht, hl]
              · simp only [isTractInList, if_neg (by tauto : ¬(t = "" ∨ l = "")),
                  List.any_eq_true, List.mem_map, Option.some.injEq]
                constructor
                · rintro ⟨x, ⟨e, he, hex⟩, hxe⟩
                  refine ⟨t, l, rfl, rfl, ht, hl, e, he, ?_⟩
                  rw [hex]
                  exact beq_iff_eq.mp hxe
                · rintro ⟨t', l', ht', hl', _, _, e, he, hee⟩
                  subst ht'
                  subst hl'
                  exact ⟨jsTrim e, ⟨e, he, rfl⟩, beq_iff_eq.mpr hee⟩
  · rintro (rfl | rfl | rfl | rfl)
    · rfl
    · cases commaSeparatedList with
      | none => rfl
      | some l => simp [isTractInList]
    · cases tractId <;> rfl
    · cases tractId with
      | none => rfl
      | some t => simp [isTractInList]

/-- Witness for C9 at the spec's examples: a padded entry matches after
trimming, and an empty identifier is rejected. -/
theorem isTractInList_spec_witness :
    isTractInList (some "353001") (some " 353001, 353002") = true ∧
    isTractInList (some "") (some "353001") = false := by
  constructor
  · exact (isTractInList_spec (some "353001") (some " 353001, 353002")).1.mpr
      ⟨"353001", " 353001, 353002", rfl, rfl, by decide, by decide,
        " 353001", by decide, by decide⟩
  · exact (isTractInList_spec (some "") (some "353001")).2
      (Or.inr (Or.inl rfl))

/-- C6 counterexample: row 1 defines `"T1"` with explicit status
`"Not Adopted"`; row 2 (primary identifier `"T2"`) lists the literal text
`"T1"` in its Churches column; yet `processAdoptionStatus` classifies `"T1"`
as `not_adopted` — the first pass only tests each row's OWN identifier against
that row's own list columns, so no cross-row confirmation happens. -/
theorem adoption_cross_row_counterexample :
    statusAt (processAdoptionStatus
      [⟨some "T1", some "Not Adopted", none, none, none, none⟩,
       ⟨some "T2", none, none, some "T1", none, none⟩]) "T1"
      = some "not_adopted" ∧
    statusAt (processAdoptionStatus
      [⟨some "T1", some "Not Adopted", none, none, none, none⟩,
       ⟨some "T2", none, none, some "T1", none, none⟩]) "T1"
      ≠ some "adopted" := by
  refine ⟨by decide, by decide⟩

/-- C6 as amended: in the two-row scenario — row 1 defines `t1` with explicit
status `"Not Adopted"` and empty list columns, row 2 defines a different
identifier `t2` whose Churches column contains `t1` as a comma-separated
entry — the classification map still reports `t1` as `not_adopted`: a
different row's list columns never confirm a tract, only a row's own columns
can. -/
theorem adoption_same_row_only (t1 t2 churchesVal : String)
    (h1 : jsTrim t1 ≠ "") (h2 : jsTrim t2 ≠ "") (h12 : jsTrim t1 ≠ jsTrim t2)
    (hmeta : jsTrim t1 ≠ "__meta")
    (hmem : isTractInList (some (jsTrim t1)) (some churchesVal) = true) :
    statusAt (processAdoptionStatus
      [⟨some t1, some "Not Adopted", none, none, none, none⟩,
       ⟨some t2, none, none, some churchesVal, none, none⟩]) (jsTrim t1)
      = some "not_adopted" := by
  have hr1 : rowTract ⟨some t1, some "Not Adopted", none, none, none, none⟩
      = some (jsTrim t1) := by
    simp [rowTract, h1]
  have hr2 : rowTract ⟨some t2, none, none, some churchesVal, none, none⟩
      = some (jsTrim t2) := by
    simp [rowTract, h2]
  have hempty : ∀ x : String, isTractInList (some x) (some "") = false := by
    intro x
    simp [isTractInList]
  have hna : (jsToLower "Not Adopted" == "adopted") = false := by decide
  have hra1 : rowAdopted ⟨some t1, some "Not Adopted", none, none, none, none⟩
      (jsTrim t1) = false := by
    unfold rowAdopted
    simp only [jsOr, hna, hempty]
    rfl
  have hnotmem : jsTrim t1 ∉ (adoptionPass1
      [⟨some t1, some "Not Adopted", none, none, none, none⟩,
       ⟨some t2, none, none, some churchesVal, none, none⟩]).2 := by
    unfold adoptionPass1
    simp only [List.foldl_cons, List.foldl_nil, hr1, hr2, hra1]
    simp only [Bool.false_eq_true, if_false]
    cases hb : rowAdopted ⟨some t2, none, none, some churchesVal, none, none⟩
        (jsTrim t2) with
    | false => simp
    | true =>
        simp only [if_true]
        rw [mem_setAdd]
        rintro (hin | heq)
        · cases hin
        · exact h12 heq
  unfold processAdoptionStatus statusAt
  simp only [List.foldl_cons, List.foldl_nil, hr1, hr2]
  rw [lookupS_objSet, if_neg hmeta, lookupS_objSet,
    if_neg (by exact h12), lookupS_objSet, if_pos rfl]
  simp only [if_neg hnotmem]

/-- Witness for C6 as amended at the concrete scenario of the claim. -/
theorem adoption_same_row_only_witness :
    statusAt (processAdoptionStatus
      [⟨some "T1", some "Not Adopted", none, none, none, none⟩,
       ⟨some "T2", none, none, some "T1", none, none⟩]) (jsTrim "T1")
      = some "not_adopted" :=
  adoption_same_row_only "T1" "T2" "T1"
    (by decide) (by decide) (by decide) (by decide) (by decide)

/-- C10: for every run, the classification map returned by
`processAdoptionStatus` holds the reserved key `"__meta"` — carrying the list
of all spreadsheet tracts and the list of adopted tracts — in the same key
space as the per-tract entries, and `createAdoptionStatusRenderer` must and
does skip it: no `uniqueValueInfos` value it emits is `"__meta"`. -/
theorem adoption_meta_key (rows : List CsvRow) :
    lookupS (processAdoptionStatus rows) "__meta"
      = some (.meta (adoptionPass1 rows).1 (adoptionPass1 rows).2) ∧
    (createAdoptionStatusRenderer (processAdoptionStatus rows)).all
      (fun p => p.1 != "__meta") = true := by
  constructor
  · unfold processAdoptionStatus
    rw [lookupS_objSet, if_pos rfl]
  · have aux : ∀ (m : List (String × AdoptionValue)) (acc : List (String × String)),
        acc.all (fun p => p.1 != "__meta") = true →
        (m.foldl rendererStep acc).all (fun p => p.1 != "__meta") = true := by
      intro m
      induction m with
      | nil => intro acc hacc; exact hacc
      | cons kv mt ih =>
          intro acc hacc
          rw [List.foldl_cons]
          refine ih (rendererStep acc kv) ?_
          unfold rendererStep
          by_cases hk : kv.1 = "__meta"
          · rw [if_pos hk]
            exact hacc
          · rw [if_neg hk]
            have hpush : (acc ++ [(kv.1, greenFill)]).all
                (fun p => p.1 != "__meta") = true ∧
                (acc ++ [(kv.1, tomatoFill)]).all
                  (fun p => p.1 != "__meta") = true := by
              constructor <;>
                · rw [List.all_append, hacc]
                  simp [hk]
            cases kv.2 with
            | entry status inCsv a b c d =>
                dsimp only
                by_cases hs : status = "adopted"
                · rw [if_pos hs]
                  exact hpush.1
                · rw [if_neg hs]
                  cases inCsv with
                  | false => exact hacc
                  | true => exact hpush.2
            | meta a b => exact hacc
    exact aux (processAdoptionStatus rows) [] rfl

/-- C8 counterexample: on features whose every consumed field carries the
values 100, 200, `"N/A"`, 300, the non-parseable record is excluded (sums are
600, from three records), but NO averaged field formats as `"200.00"`: the
employment-rate average formats as `"200.0%"` (one decimal plus percent sign)
and the income average as `"$200"`; the generic two-decimal branch is
unreachable for the fixed average-field list. -/
theorem calculateTotals_format_counterexample :
    calculateTotals (exampleFeatures "N/A")
      = [("featureCount", .rnum 4), ("Total Population", .rnum 600),
         ("Total Households", .rnum 600),
         ("Average Employment Rate", .rstr "200.0%"),
         ("Average Median Household Income", .rstr "$200")] ∧
    (calculateTotals (exampleFeatures "N/A")).all
      (fun e => e.2 != ResVal.rstr "200.00") = true := by
  refine ⟨by decide, by decide⟩

/-- C8 as amended: for every non-parseable cell value, `calculateTotals` on
the 100/200/junk/300 features excludes the junk record from both sum and
count (total 600 over count 3, never treating it as zero), and the averages —
exactly 200 — format per the field-specific branches as `"200.0%"` and
`"$200"`. -/
theorem calculateTotals_excludes_nonparseable (junk : String)
    (h : parseFloatQ junk = none) :
    fieldTotal (exampleFeatures junk) "P1_001N" = ⟨600, 1⟩ ∧
    fieldCount (exampleFeatures junk) "P1_001N" = 3 ∧
    lookupS (calculateTotals (exampleFeatures junk)) "Total Population"
      = some (.rnum 600) ∧
    lookupS (calculateTotals (exampleFeatures junk)) "Average Employment Rate"
      = some (.rstr "200.0%") ∧
    lookupS (calculateTotals (exampleFeatures junk))
      "Average Median Household Income" = some (.rstr "$200") := by
  have j1 : fieldContrib [("P1_001N", JSVal.str junk), ("DP02_0001E", JSVal.str junk),
      ("DP03_0004PE", JSVal.str junk), ("S1901_C01_012E", JSVal.str junk)]
      "P1_001N" = none := by
    simp [fieldContrib, lookupS, jsParseFloat, h]
  have j2 : fieldContrib [("P1_001N", JSVal.str junk), ("DP02_0001E", JSVal.str junk),
      ("DP03_0004PE", JSVal.str junk), ("S1901_C01_012E", JSVal.str junk)]
      "DP02_0001E" = none := by
    simp [fieldContrib, lookupS, jsParseFloat, h]
  have j3 : fieldContrib [("P1_001N", JSVal.str junk), ("DP02_0001E", JSVal.str junk),
      ("DP03_0004PE", JSVal.str junk), ("S1901_C01_012E", JSVal.str junk)]
      "DP03_0004PE" = none := by
    simp [fieldContrib, lookupS, jsParseFloat, h]
  have j4 : fieldContrib [("P1_001N", JSVal.str junk), ("DP02_0001E", JSVal.str junk),
      ("DP03_0004PE", JSVal.str junk), ("S1901_C01_012E", JSVal.str junk)]
      "S1901_C01_012E" = none := by
    simp [fieldContrib, lookupS, jsParseFloat, h]
  have e1 : fieldTotal (exampleFeatures junk) "P1_001N" = ⟨600, 1⟩ := by
    simp only [fieldTotal, exampleFeatures, List.foldl_cons, List.foldl_nil, j1]
    decide
  have e2 : fieldTotal (exampleFeatures junk) "DP02_0001E" = ⟨600, 1⟩ := by
    simp only [fieldTotal, exampleFeatures, List.foldl_cons, List.foldl_nil, j2]
    decide
  have e3 : fieldTotal (exampleFeatures junk) "DP03_0004PE" = ⟨600, 1⟩ := by
    simp only [fieldTotal, exampleFeatures, List.foldl_cons, List.foldl_nil, j3]
    decide
  have e4 : fieldTotal (exampleFeatures junk) "S1901_C01_012E" = ⟨600, 1⟩ := by
    simp only [fieldTotal, exampleFeatures, List.foldl_cons, List.foldl_nil, j4]
    decide
  have c1 : fieldCount (exampleFeatures junk) "P1_001N" = 3 := by
    simp only [fieldCount, exampleFeatures, List.foldl_cons, List.foldl_nil, j1]
    decide
  have c2 : fieldCount (exampleFeatures junk) "DP02_0001E" = 3 := by
    simp only [fieldCount, exampleFeatures, List.foldl_cons, List.foldl_nil, j2]
    decide
  have c3 : fieldCount (exampleFeatures junk) "DP03_0004PE" = 3 := by
    simp only [fieldCount, exampleFeatures, List.foldl_cons, List.foldl_nil, j3]
    decide
  have c4 : fieldCount (exampleFeatures junk) "S1901_C01_012E" = 3 := by
    simp only [fieldCount, exampleFeatures, List.foldl_cons, List.foldl_nil, j4]
    decide
  have hlen : (exampleFeatures junk).length = 4 := rfl
  have hcalc : calculateTotals (exampleFeatures junk)
      = [("featureCount", .rnum 4), ("Total Population", .rnum 600),
         ("Total Households", .rnum 600),
         ("Average Employment Rate", .rstr "200.0%"),
         ("Average Median Household Income", .rstr "$200")] := by
    simp only [calculateTotals, hlen, sumFields, avgFields, List.foldl_cons,
      List.foldl_nil, e1, e2, e3, e4, c1, c2, c3, c4]
    decide
  exact ⟨e1, c1, by rw [hcalc]; decide, by rw [hcalc]; decide, by rw [hcalc]; decide⟩

/-- Witness for C8 as amended at the literal junk cell `"N/A"`. -/
theorem calculateTotals_excludes_nonparseable_witness :
    fieldTotal (exampleFeatures "N/A") "P1_001N" = ⟨600, 1⟩ ∧
    fieldCount (exampleFeatures "N/A") "P1_001N" = 3 ∧
    lookupS (calculateTotals (exampleFeatures "N/A")) "Total Population"
      = some (.rnum 600) ∧
    lookupS (calculateTotals (exampleFeatures "N/A")) "Average Employment Rate"
      = some (.rstr "200.0%") ∧
    lookupS (calculateTotals (exampleFeatures "N/A"))
      "Average Median Household Income" = some (.rstr "$200") :=
  calculateTotals_excludes_nonparseable "N/A" (by decide)
